import Mathlib

/-!
Shallow embedding of `scripts/publish-github-jobs.mjs` (the hardened revision of
the wagey.gg GitHub job publisher) and proofs about it.

Modelling conventions, used throughout:
* JS `undefined`/`null` string fields are modelled as `Option String`; JS
  falsiness for strings (`undefined`, `null` and `""` are falsy) is made
  explicit at each use site, mirroring the `||` defaults of the source.
* JS numbers used as salaries are modelled as `Nat` (`0` is falsy in JS, so
  `x || y` conflates an absent field with `0`; the model does the same).
* A date-string field is modelled as `DateStr`: the literal string together
  with the result of `new Date(raw).getTime()` (`none` models `NaN`, i.e. an
  unparseable string).  Arithmetic on possibly-`NaN` numbers is modelled on
  `Option Int` with the JS rules: any comparison with `NaN` is false and
  `NaN` stringifies to `"NaN"`.
* `Math.floor(a / b)` for a positive integer literal `b` is floor division,
  i.e. `Int.ediv` (Euclidean division agrees with floor for positive
  divisors).
* String `.slice`/`.length` count UTF-16 code units in JS; the model counts
  characters, which agrees on all strings without astral-plane code points.
  `charCodeAt`, used by the teaser-mask hash, is modelled exactly (surrogate
  pairs included).
-/

/-- The `ref` query value appended to every outbound wagey.gg link. -/
def REF : String := "github"

/-! ## JS primitive helpers -/

/-- `o || d` on a JS string value: `undefined`/`""` fall back to the default. -/
def jsOrStr (o : Option String) (d : String) : String :=
  match o with
  | none => d
  | some s => if s = "" then d else s

/-- `o || ''`: the empty-string default used before string operations. -/
def jsOrEmpty (o : Option String) : String :=
  match o with
  | none => ""
  | some s => s

/-- JS truthiness of a numeric field (absent and `0` are falsy). -/
def truthyNat (o : Option Nat) : Bool :=
  match o with
  | none => false
  | some n => n != 0

/-- JS truthiness of a string field (absent and `""` are falsy). -/
def truthyStr (o : Option String) : Bool :=
  match o with
  | none => false
  | some s => s != ""

/-- `s.slice(0, n)` (model counts characters; see header note). -/
def takeStr (s : String) (n : Nat) : String :=
  String.mk (s.data.take n)

/-- Insert a thousands separator every three digits, walking the reversed
digit list (`i` counts digits already emitted). -/
def insertCommas : Nat → List Char → List Char
  | _, [] => []
  | i, c :: cs =>
    if i ≠ 0 ∧ i % 3 = 0 then c :: ',' :: insertCommas (i + 1) cs
    else c :: insertCommas (i + 1) cs

/-- `n.toLocaleString()` for a natural number: digits grouped by commas. -/
def toLocaleString (n : Nat) : String :=
  String.mk ((insertCommas 0 (toString n).data.reverse).reverse)

/-- `Math.floor(a / b)` for a positive divisor `b`. -/
def jsFloorDiv (a b : Int) : Int := a / b

/-- Comparison `x < k` where `x` may be `NaN` (`none`): false on `NaN`. -/
def jsLtNum (x : Option Int) (k : Int) : Bool :=
  match x with
  | none => false
  | some v => v < k

/-- Strict equality `x === k` where `x` may be `NaN`: false on `NaN`. -/
def jsEqNum (x : Option Int) (k : Int) : Bool :=
  match x with
  | none => false
  | some v => v = k

/-- Template-literal rendering of a possibly-`NaN` number. -/
def jsNumStr (x : Option Int) : String :=
  match x with
  | none => "NaN"
  | some v => toString v

/-- Template-literal rendering of a possibly-`undefined` string. -/
def jsTmpl (o : Option String) : String :=
  match o with
  | none => "undefined"
  | some s => s

/-! ### Character-list string primitives

The built-in `String.trim`/`split`/`toLower`/`startsWith` are defined by
position arithmetic and do not reduce inside the kernel, so the JS string
operations are modelled directly on the character list. -/

/-- JS `\s`: the ECMAScript WhiteSpace and LineTerminator sets — ASCII
whitespace plus NBSP, the Unicode space separators (U+1680, U+2000–U+200A,
U+202F, U+205F, U+3000), LS/PS and the BOM. -/
def wsChar (c : Char) : Bool :=
  c = ' ' ∨ c = '\t' ∨ c = '\n' ∨ c = '\r' ∨ c = '\x0b' ∨ c = '\x0c' ∨
  c = '\u00A0' ∨ c = '\u1680' ∨ ('\u2000' ≤ c ∧ c ≤ '\u200A') ∨
  c = '\u2028' ∨ c = '\u2029' ∨ c = '\u202F' ∨ c = '\u205F' ∨ c = '\u3000' ∨ c = '\uFEFF'

/-- `trim()`: strip whitespace from both ends (`String.prototype.trim`
strips exactly the WhiteSpace ∪ LineTerminator set modelled by `wsChar`). -/
def trimChars (cs : List Char) : List Char :=
  ((cs.dropWhile wsChar).reverse.dropWhile wsChar).reverse

/-- `s.trim()` as a string operation. -/
def jsTrim (s : String) : String :=
  String.mk (trimChars s.data)

/-- `s.toLowerCase()` (ASCII model). -/
def lowerStr (s : String) : String :=
  String.mk (s.data.map Char.toLower)

/-- `split(sep)` for a one-character separator. -/
def splitChar (sep : Char) : List Char → List (List Char)
  | [] => [[]]
  | c :: cs =>
    let r := splitChar sep cs
    if c = sep then [] :: r
    else
      match r with
      | [] => [[c]]
      | g :: gs => (c :: g) :: gs

/-- Split at every character satisfying `p`. -/
def splitPred (p : Char → Bool) : List Char → List (List Char)
  | [] => [[]]
  | c :: cs =>
    let r := splitPred p cs
    if p c then [] :: r
    else
      match r with
      | [] => [[c]]
      | g :: gs => (c :: g) :: gs

/-- `startsWith`: the first list is a prefix of the second. -/
def startsWithL : List Char → List Char → Bool
  | [], _ => true
  | _ :: _, [] => false
  | p :: ps, c :: cs => p = c ∧ startsWithL ps cs

/-! ## Data model -/

/-- A date-valued string field: the raw string plus the result of
`new Date(raw).getTime()` (`none` = `NaN`). -/
structure DateStr where
  raw : String
  time : Option Int

deriving instance DecidableEq for DateStr

/-- One job record, the `d` payload of a `job` envelope (§3 of the spec). -/
structure Job where
  id : String
  title : Option String
  company : Option String
  region : Option String
  isRemote : Bool
  location : Option String
  salary : Option String
  salaryMin : Option Nat
  salaryMax : Option Nat
  skills : Option String
  seniority : Option String
  ats : Option String
  verifiedAt : Option DateStr
  scrapedAt : Option DateStr
  visibility : Option String

deriving instance DecidableEq for Job

/-- The `meta` envelope: carries the company-logo lookup
(a JSON object, modelled as an association list). -/
structure MetaObj where
  companyLogos : List (String × String)

deriving instance DecidableEq for MetaObj

/-! ## Formatting utilities -/

/-- `slugify`: lowercase, collapse non-alphanumeric runs to `-`. -/
def isSlugChar (c : Char) : Bool :=
  ('a' ≤ c ∧ c ≤ 'z') ∨ ('0' ≤ c ∧ c ≤ '9')

/-- Replace each maximal run of non-slug characters by a single `-`
(the flag records whether we are inside such a run). -/
def collapseRuns : Bool → List Char → List Char
  | _, [] => []
  | inRun, c :: cs =>
    if isSlugChar c then c :: collapseRuns false cs
    else if inRun then collapseRuns true cs
    else '-' :: collapseRuns true cs

/-- `slugify(text)`: lowercase, `[^a-z0-9]+` runs become `-`, leading and
trailing `-` stripped, first 80 characters kept. -/
def slugify (text : String) : String :=
  let cs := text.data.map Char.toLower
  let collapsed := collapseRuns false cs
  let stripped := (collapsed.dropWhile (fun c => c = '-')).reverse.dropWhile (fun c => c = '-') |>.reverse
  String.mk (stripped.take 80)

/-- `jobUrl(job)`: canonical wagey.gg job link with slug and referrer. -/
def jobUrl (job : Job) : String :=
  let slug := slugify (jsTmpl job.title ++ " at " ++ jsTmpl job.company)
  "https://wagey.gg/jobs/" ++ job.id ++ (if slug ≠ "" then "-" ++ slug else "") ++ "?ref=" ++ REF

/-- Month abbreviations used by the date formatters. -/
def monthNames : List String :=
  ["Jan", "Feb", "Mar", "Apr", "May", "Jun", "Jul", "Aug", "Sep", "Oct", "Nov", "Dec"]

/-- The result of `new Date(x)` seen through the UTC accessors used by the
formatters. -/
structure JSDate where
  utcFullYear : Int
  utcMonth : Nat
  utcDate : Nat
  utcHours : Nat
  utcMinutes : Nat

deriving instance DecidableEq for JSDate

/-- A date-string argument as the date formatters see it: absent/empty
(falsy), an unparseable string (`NaN` date), or a parsed date. -/
inductive DateVal where
  | absent
  | invalid
  | valid (d : JSDate)

deriving instance DecidableEq for DateVal

/-- Left-pad with `'0'` to two characters (`String.padStart(2, '0')`). -/
def pad2 (n : Nat) : String :=
  let s := toString n
  if s.length < 2 then "0" ++ s else s

/-- `fmtDateTime`: `d-Mon-YYYY HH:MM UTC`, empty on absent/unparseable. -/
def fmtDateTime (v : DateVal) : String :=
  match v with
  | .absent => ""
  | .invalid => ""
  | .valid d =>
    toString d.utcDate ++ "-" ++ (monthNames.getD d.utcMonth "undefined") ++ "-" ++
      toString d.utcFullYear ++ " " ++ pad2 d.utcHours ++ ":" ++ pad2 d.utcMinutes ++ " UTC"

/-- `fmtK(n)`: `$` plus the value, compacted to `k` above 999.
`Math.round(n / 1000)` is round-half-up, i.e. `(n + 500) / 1000` on `Nat`. -/
def fmtK (n : Nat) : String :=
  if n ≥ 1000 then "$" ++ toString ((n + 500) / 1000) ++ "k"
  else "$" ++ toString n

/-- `fmtSalary(job)`: always derived from the numeric bounds. -/
def fmtSalary (job : Job) : String :=
  if truthyNat job.salaryMin ∧ truthyNat job.salaryMax ∧ job.salaryMin = job.salaryMax then
    fmtK (job.salaryMin.getD 0) ++ "/year"
  else if truthyNat job.salaryMin ∧ truthyNat job.salaryMax then
    fmtK (job.salaryMin.getD 0) ++ "–" ++ fmtK (job.salaryMax.getD 0) ++ "/year"
  else if truthyNat job.salaryMin then fmtK (job.salaryMin.getD 0) ++ "+/year"
  else if truthyNat job.salaryMax then fmtK (job.salaryMax.getD 0) ++ "/year"
  else ""

/-- Strip a trailing parenthesised annotation, mirroring the regex
`^(.+?)(?:\([^)]+\))?$` with its lazy first group: the suffix removed is
`( mid )` where `mid` is a nonempty run with no `)`, the `(` is the leftmost
one compatible with that shape, and the part before it is nonempty. -/
def stripParenSuffix (s : String) : String :=
  let cs := s.data
  match cs.reverse with
  | ')' :: rest =>
    let zone := rest.takeWhile (fun c => c ≠ ')')
    let zr := zone.reverse
    match zr.findIdx? (fun c => c = '(') with
    | some j =>
      let contentLen := zr.length - j - 1
      let prefixLen := cs.length - (zone.length + 1) + j
      if 1 ≤ contentLen ∧ 1 ≤ prefixLen then String.mk (cs.take prefixLen) else s
    | none => s
  | _ => s

/-- `parseSkills("Python(0.95), AWS(0.80)") = ["Python", "AWS"]`: split on
commas, strip trailing score annotations, trim, drop empties. -/
def parseSkills (skills : Option String) : List String :=
  match skills with
  | none => []
  | some str =>
    if str = "" then []
    else (((splitChar ',' str.data).map String.mk).map (fun s =>
      let t := jsTrim s
      if t = "" then t else jsTrim (stripParenSuffix t))).filter (fun r => r ≠ "")

/-- Region code to human label, as an ordered association list
(`Object.entries(REGION_LABELS)` preserves this insertion order). -/
def REGION_LABELS : List (String × String) :=
  [("WW", "Remote Worldwide"), ("EMEA", "Europe & Middle East"),
   ("APAC", "Asia-Pacific"), ("NA", "North America"), ("LATAM", "Latin America")]

/-- Whitespace-separated words of a string (the `\s+` separators of the
garbage-title regex). -/
def wsTokens (s : String) : List String :=
  ((splitPred wsChar s.data).map String.mk).filter (fun t => t ≠ "")

/-- The garbage-title regex
`^(careers?|job\s+openings?|open\s+positions?|positions?|current\s+(job\s+)?openings?|join\s+our\s+team|work\s+(with|at|for)\s+us)$/i`
on an already trimmed string: case-fold, then match the token sequence. -/
def garbageTitleMatch (s : String) : Bool :=
  match wsTokens (lowerStr s) with
  | [w] => w = "career" ∨ w = "careers" ∨ w = "position" ∨ w = "positions"
  | [a, b] =>
    (a = "job" ∧ (b = "opening" ∨ b = "openings")) ∨
    (a = "open" ∧ (b = "position" ∨ b = "positions")) ∨
    (a = "current" ∧ (b = "opening" ∨ b = "openings"))
  | [a, b, c] =>
    (a = "current" ∧ b = "job" ∧ (c = "opening" ∨ c = "openings")) ∨
    (a = "join" ∧ b = "our" ∧ c = "team") ∨
    (a = "work" ∧ (b = "with" ∨ b = "at" ∨ b = "for") ∧ c = "us")
  | _ => false

/-- `isGarbageJob`: the client-side noise filter on the trimmed title. -/
def isGarbageJob (job : Job) : Bool :=
  garbageTitleMatch (jsTrim (jsOrEmpty job.title))

/-- `esc(str)`: escape `|` and collapse newlines for markdown table cells. -/
def esc (str : Option String) : String :=
  String.mk ((jsOrEmpty str).data.foldr (fun c acc =>
    if c = '|' then '\\' :: '|' :: acc
    else if c = '\n' then ' ' :: acc
    else c :: acc) [])

/-! ## Grouping and sorting -/

/-- The five region buckets (`groupByRegion`'s result object). -/
structure Groups where
  WW : List Job
  EMEA : List Job
  APAC : List Job
  NA : List Job
  LATAM : List Job

deriving instance DecidableEq for Groups

/-- The empty bucket assignment. -/
def Groups.empty : Groups := ⟨[], [], [], [], []⟩

/-- Bucket lookup by region code (the five own-keys of the groups object). -/
def Groups.get (g : Groups) (code : String) : List Job :=
  if code = "WW" then g.WW
  else if code = "EMEA" then g.EMEA
  else if code = "APAC" then g.APAC
  else if code = "NA" then g.NA
  else if code = "LATAM" then g.LATAM
  else []

/-- The properties the groups object literal inherits from
`Object.prototype`.  For these names `groups[region]` is truthy without
being a bucket, so the subsequent `.push` call throws a TypeError. -/
def protoKeys : List String :=
  ["constructor", "hasOwnProperty", "isPrototypeOf", "propertyIsEnumerable",
   "toLocaleString", "toString", "valueOf", "__defineGetter__", "__defineSetter__",
   "__lookupGetter__", "__lookupSetter__", "__proto__"]

/-- `groupByRegion`: garbage records are skipped; `region || 'WW'` picks
the bucket; `WW` additionally requires `isRemote`; a code equal to one of
the five own-keys pushes to that bucket.  Any other code is still looked up
on the groups object: a name inherited from `Object.prototype` makes
`groups[region]` truthy and the `.push` call throw a TypeError (aborting
the whole run, modelled as `.error`); only the remaining codes fall through
the truthiness test and are dropped. -/
def groupByRegion : List Job → Except String Groups
  | [] => .ok Groups.empty
  | job :: rest =>
    if isGarbageJob job then groupByRegion rest
    else
      let region := jsOrStr job.region "WW"
      if region = "WW" then
        (if job.isRemote then (groupByRegion rest).map (fun g => { g with WW := job :: g.WW })
         else groupByRegion rest)
      else if region = "EMEA" then (groupByRegion rest).map (fun g => { g with EMEA := job :: g.EMEA })
      else if region = "APAC" then (groupByRegion rest).map (fun g => { g with APAC := job :: g.APAC })
      else if region = "NA" then (groupByRegion rest).map (fun g => { g with NA := job :: g.NA })
      else if region = "LATAM" then (groupByRegion rest).map (fun g => { g with LATAM := job :: g.LATAM })
      else if region ∈ protoKeys then .error "TypeError: groups[region].push is not a function"
      else groupByRegion rest

/-- Whether processing this record makes the bucket lookup escape to the
prototype chain and the run abort (reached only past the garbage filter and
the five own-key branches). -/
def regionLookupThrows (j : Job) : Bool :=
  !(isGarbageJob j) && decide (jsOrStr j.region "WW" ∈ protoKeys)

/-- The bucket assignment of the normal path: what `groupByRegion` returns
(wrapped in `.ok`) when no record makes the lookup escape to the prototype
chain. -/
def groupsOf : List Job → Groups
  | [] => Groups.empty
  | job :: rest =>
    let g := groupsOf rest
    if isGarbageJob job then g
    else
      let region := jsOrStr job.region "WW"
      if region = "WW" then
        (if job.isRemote then { g with WW := job :: g.WW } else g)
      else if region = "EMEA" then { g with EMEA := job :: g.EMEA }
      else if region = "APAC" then { g with APAC := job :: g.APAC }
      else if region = "NA" then { g with NA := job :: g.NA }
      else if region = "LATAM" then { g with LATAM := job :: g.LATAM }
      else g

/-- `new Date(job.scrapedAt).getTime()` (`none` = `NaN`, including the
absent-field case, since `new Date(undefined)` is an invalid date). -/
def scrapedTime (job : Job) : Option Int :=
  match job.scrapedAt with
  | none => none
  | some d => d.time

/-- Stability relation for the sort comparator
`(a, b) => time(b) - time(a)`: `a` may stay before `b` unless the comparator
is strictly positive.  A `NaN` comparator value keeps the original order. -/
def sortKeep (a b : Job) : Bool :=
  match scrapedTime a, scrapedTime b with
  | some ta, some tb => tb ≤ ta
  | _, _ => true

/-- `sortJobs`: stable sort, most recently scraped first.  (For records with
unparseable `scrapedAt` the JS engine order is implementation-defined; the
model commits to the stable order.) -/
def sortJobs (jobs : List Job) : List Job :=
  jobs.mergeSort sortKeep

/-- `fmtAge(dateStr)` against the ambient `Date.now()` (passed explicitly):
empty on falsy input; otherwise buckets the elapsed time.  `NaN` elapsed
time falls through every comparison and renders as `NaNd`. -/
def fmtAge (nowMs : Int) (dateStr : Option DateStr) : String :=
  match dateStr with
  | none => ""
  | some ds =>
    if ds.raw = "" then ""
    else
      let ms : Option Int := ds.time.map (fun t => nowMs - t)
      let hours : Option Int := ms.map (fun m => jsFloorDiv m 3600000)
      if jsLtNum hours 1 then "<1h"
      else if jsLtNum hours 24 then jsNumStr hours ++ "h"
      else
        let days : Option Int := hours.map (fun h => jsFloorDiv h 24)
        if jsEqNum days 1 then "1d" else jsNumStr days ++ "d"

/-! ## Markdown generation -/

/-- `normalizeName`: case-fold and strip non-alphanumerics, to match the
keys of the logo lookup. -/
def normalizeName (name : Option String) : String :=
  String.mk (((jsOrEmpty name).data.map Char.toLower).filter isSlugChar)

/-- Placeholder logo URL for companies without a logo entry. -/
def PLACEHOLDER_LOGO : String := "https://wagey.gg/api/company-logo?name=_placeholder"

/-- Characters `encodeURIComponent` leaves unescaped. -/
def uriUnreserved (c : Char) : Bool :=
  ('A' ≤ c ∧ c ≤ 'Z') ∨ ('a' ≤ c ∧ c ≤ 'z') ∨ ('0' ≤ c ∧ c ≤ '9') ∨
    c = '-' ∨ c = '_' ∨ c = '.' ∨ c = '!' ∨ c = '~' ∨ c = '*' ∨ c = '\'' ∨ c = '(' ∨ c = ')'

/-- UTF-8 bytes of one character. -/
def utf8Bytes (c : Char) : List Nat :=
  let v := c.toNat
  if v < 0x80 then [v]
  else if v < 0x800 then [0xC0 + v / 0x40, 0x80 + v % 0x40]
  else if v < 0x10000 then [0xE0 + v / 0x1000, 0x80 + v / 0x40 % 0x40, 0x80 + v % 0x40]
  else [0xF0 + v / 0x40000, 0x80 + v / 0x1000 % 0x40, 0x80 + v / 0x40 % 0x40, 0x80 + v % 0x40]

/-- Upper-case hexadecimal digit. -/
def hexDigit (n : Nat) : Char :=
  if n < 10 then Char.ofNat ('0'.toNat + n) else Char.ofNat ('A'.toNat + (n - 10))

/-- `%HH` escape of one byte. -/
def pctByte (b : Nat) : List Char :=
  ['%', hexDigit (b / 16), hexDigit (b % 16)]

/-- `encodeURIComponent`: unreserved characters pass through, everything
else is percent-encoded as UTF-8. -/
def encodeURIComponent (s : String) : String :=
  String.mk (s.data.foldr (fun c acc =>
    if uriUnreserved c then c :: acc else (utf8Bytes c).foldr (fun b a => pctByte b ++ a) acc) [])

/-- First binding for a key in an association list (a JSON object has
unique keys, so this is the object lookup `logos[normalized]`). -/
def lookupLogo (logos : List (String × String)) (key : String) : Option String :=
  match logos.find? (fun p => p.1 = key) with
  | none => none
  | some p => some p.2

/-- `companyCell`: logo image (placeholder when missing) plus the escaped
name truncated to 25 characters. -/
def companyCell (job : Job) (logos : List (String × String)) : String :=
  let name := takeStr (esc job.company) 25
  let normalized := normalizeName job.company
  let logoUrl :=
    match lookupLogo logos normalized with
    | some logoId => "https://wagey.gg/api/company-logo?id=" ++ encodeURIComponent logoId
    | none => PLACEHOLDER_LOGO
  "<img src=\"" ++ logoUrl ++ "\" alt=\"\" height=\"16\"> " ++ name

/-- `fmtRole`: escaped title, truncated to 37 characters plus `...` when
longer than 40. -/
def fmtRole (title : Option String) : String :=
  let t := esc title
  if t.length > 40 then takeStr t 37 ++ "..." else t

/-- `applyCell`: teaser records get the upgrade call-to-action, everything
else a direct apply link. -/
def applyCell (job : Job) : String :=
  if job.visibility = some "teaser" then
    "[🔒 Pro](https://wagey.gg/pricing?ref=" ++ REF ++ ")"
  else
    "[Apply](" ++ jobUrl job ++ ")"

/-- UTF-16 code units of a string (`charCodeAt` sees surrogate pairs for
astral-plane characters). -/
def utf16Units (s : String) : List Nat :=
  s.data.foldr (fun c acc =>
    let v := c.toNat
    if v < 0x10000 then v :: acc
    else (0xD800 + (v - 0x10000) / 0x400) :: (0xDC00 + (v - 0x10000) % 0x400) :: acc) []

/-- `ToInt32`: wrap into the signed 32-bit range (the `| 0` coercion). -/
def wrap32 (x : Int) : Int :=
  Int.emod (x + 2 ^ 31) (2 ^ 32) - 2 ^ 31

/-- One step of the teaser-mask hash: `((h << 5) - h + code) | 0`
(`h << 5` itself wraps to 32 bits before the float add/subtract). -/
def hashStep (h : Int) (code : Nat) : Int :=
  wrap32 (wrap32 (h * 32) - h + code)

/-- `teaserMask`: deterministic 4–12 block mask hashed from title/id. -/
def teaserMask (job : Job) : String :=
  let s := jsOrStr job.title (jsOrStr (some job.id) "")
  let h := (utf16Units s).foldl hashStep 0
  let len := 4 + (h.natAbs % 9)
  String.mk (List.replicate len '░')

/-- One data row of a job table (the body of the `for` loop in `jobTable`).
`nowMs` is the ambient `Date.now()` used by the age column. -/
def jobRow (nowMs : Int) (logos : List (String × String)) (job : Job) : String :=
  let isTeaser := job.visibility = some "teaser"
  let company := if isTeaser then "🔒 " ++ teaserMask job else companyCell job logos
  let roleTitle := fmtRole job.title
  let remote := if job.isRemote then "🌐" else "🏢"
  let rawLoc := jsTrim (jsOrEmpty job.location)
  let loc :=
    if rawLoc = "" ∨ startsWithL "unknown".data (rawLoc.data.map Char.toLower) then ""
    else takeStr (esc (some rawLoc)) 35
  let locPart := if loc ≠ "" then loc ++ " • " else ""
  let debug := " <br><sub>" ++ remote ++ " " ++ locPart ++ jsOrStr job.region "?" ++ "</sub>"
  let role := roleTitle ++ debug
  let salary := fmtSalary job
  let age := fmtAge nowMs job.scrapedAt
  let link := applyCell job
  "| " ++ company ++ " | " ++ role ++ " | " ++ salary ++ " | " ++ age ++ " | " ++ link ++ " |"

/-- The jobs actually rendered by a table: sorted, capped at `limit`. -/
def renderedJobs (jobs : List Job) (limit : Nat) : List Job :=
  (sortJobs jobs).take limit

/-- Header lines of a job table. -/
def jobTableHeader : List String :=
  ["| Company | Role | Salary USD | Age | |",
   "|---------|------|------------|-----|---|"]

/-- The data rows pushed by `jobTable`'s loop. -/
def jobTableRows (nowMs : Int) (jobs : List Job) (logos : List (String × String))
    (limit : Nat) : List String :=
  (renderedJobs jobs limit).map (jobRow nowMs logos)

/-- `jobTable(jobs, logos, limit = 500)`. -/
def jobTable (nowMs : Int) (jobs : List Job) (logos : List (String × String))
    (limit : Nat) : String :=
  if (renderedJobs jobs limit).length = 0 then "*No jobs currently listed.*\n"
  else String.intercalate "\n" (jobTableHeader ++ jobTableRows nowMs jobs logos limit) ++ "\n"

/-- The salary predicate of every header/summary count:
`j.salaryMin || j.salaryMax || j.salary`. -/
def salaryTruthy (j : Job) : Bool :=
  truthyNat j.salaryMin ∨ truthyNat j.salaryMax ∨ truthyStr j.salary

/-- The verified predicate of every header/summary count: `j.verifiedAt`
(a truthy date string). -/
def verifiedTruthy (j : Job) : Bool :=
  match j.verifiedAt with
  | none => false
  | some d => d.raw ≠ ""

/-! ## Fetch with retry -/

/-- `MAX_RETRIES`. -/
def MAX_RETRIES : Nat := 5

/-- `INITIAL_DELAY_MS` (3 s; doubles each attempt). -/
def INITIAL_DELAY_MS : Nat := 3000

/-- The backoff delay slept before moving past attempt `attempt`:
`INITIAL_DELAY_MS * 2 ** (attempt - 1)`. -/
def delayFor (attempt : Nat) : Nat :=
  INITIAL_DELAY_MS * 2 ^ (attempt - 1)

/-- The `JSON.parse` outcome of one non-blank line of the response body:
a malformed line (parse throws), a `meta` envelope, a `job` envelope, or an
envelope of any other type (e.g. `done`), which is ignored. -/
inductive ParsedLine where
  | bad
  | meta (m : MetaObj)
  | job (j : Job)
  | other

deriving instance DecidableEq for ParsedLine

/-- What the environment does on one fetch attempt: the server responds
with a status and a body (given as the non-blank lines after
`split('\n')`/`filter`), or the `fetch` call itself throws (timeout,
connection reset, abort). -/
inductive AttemptOutcome where
  | response (status : Nat) (body : List ParsedLine)
  | netErr (msg : String)

deriving instance DecidableEq for AttemptOutcome

/-- The JS exceptions `fetchJobs` can raise. -/
inductive JsErr where
  | apiError (status : Nat)
  | parseError
  | netError (msg : String)
  | loopExited

deriving instance DecidableEq for JsErr

/-- The line-processing loop of a 2xx attempt: jobs accumulate in order,
`meta` is last-one-wins, unknown types are skipped, a malformed line throws. -/
def parseLines : List ParsedLine → List Job → Option MetaObj →
    Except JsErr (List Job × Option MetaObj)
  | [], jobs, meta => .ok (jobs.reverse, meta)
  | .bad :: _, _, _ => .error .parseError
  | .meta m :: rest, jobs, _ => parseLines rest jobs (some m)
  | .job j :: rest, jobs, meta => parseLines rest (j :: jobs) meta
  | .other :: rest, jobs, meta => parseLines rest jobs meta

/-- What the `try` block of one attempt does. -/
inductive TryResult where
  | returned (jobs : List Job) (meta : Option MetaObj)
  | continued (delayMs : Nat)
  | threw (e : JsErr)

deriving instance DecidableEq for TryResult

/-- `resp.ok`: status in the 2xx range. -/
def respOk (status : Nat) : Bool :=
  200 ≤ status ∧ status ≤ 299

/-- The body of the `try` block at a given attempt number: non-2xx statuses
that are retryable (5xx or 429) sleep-and-continue while attempts remain,
any other non-2xx throws; a 2xx body is parsed line by line (a malformed
line throws); otherwise the jobs and meta are returned. -/
def tryBody (o : AttemptOutcome) (attempt : Nat) : TryResult :=
  match o with
  | .netErr m => .threw (.netError m)
  | .response status body =>
    if respOk status then
      match parseLines body [] none with
      | .error e => .threw e
      | .ok (jobs, meta) => .returned jobs meta
    else
      let isRetryable := status ≥ 500 ∨ status = 429
      if isRetryable ∧ attempt < MAX_RETRIES then .continued (delayFor attempt)
      else .threw (.apiError status)

/-- Observable result of a whole `fetchJobs` call: how many attempts were
made, the backoff delays slept between consecutive attempts, and the value
returned or exception propagated. -/
structure FetchResult where
  attempts : Nat
  sleeps : List Nat
  outcome : Except JsErr (List Job × Option MetaObj)

/-- The retry loop from attempt number `a`, with `fuel` remaining loop
iterations (`fuel = MAX_RETRIES - a + 1` at every reachable call).  A
`continued` try-result retries after its delay; a thrown error is caught
and retried after the backoff delay while attempts remain, and propagates
from the last attempt.  `fuel = 0` models the (unreachable) fall-through of
the `for` loop. -/
def fetchGo (env : Nat → AttemptOutcome) : Nat → Nat → FetchResult
  | 0, _ => ⟨0, [], .error .loopExited⟩
  | fuel + 1, a =>
    match tryBody (env a) a with
    | .returned jobs meta => ⟨1, [], .ok (jobs, meta)⟩
    | .continued d =>
      let r := fetchGo env fuel (a + 1)
      ⟨r.attempts + 1, d :: r.sleeps, r.outcome⟩
    | .threw e =>
      if a < MAX_RETRIES then
        let r := fetchGo env fuel (a + 1)
        ⟨r.attempts + 1, delayFor a :: r.sleeps, r.outcome⟩
      else ⟨1, [], .error e⟩

/-- `fetchJobs`, as a function of the per-attempt environment behaviour. -/
def fetchJobs (env : Nat → AttemptOutcome) : FetchResult :=
  fetchGo env MAX_RETRIES 1

/-! ## Update history (cross-repo git log aggregation) -/

/-- One parsed `git log` line: `%H|%aI|%s`. -/
structure LogEntry where
  hash : String
  date : Option String
  message : String

deriving instance DecidableEq for LogEntry

/-- `readGitLog`: `none` models `execSync` throwing (missing repo,
timeout), which the `catch` turns into an empty log; otherwise the raw
output is trimmed and each line split at `|` into hash, date and message
(the message is the re-joined remainder). -/
def readGitLog (raw : Option String) : List LogEntry :=
  match raw with
  | none => []
  | some r =>
    let t := jsTrim r
    if t = "" then []
    else ((splitChar '\n' t.data).map String.mk).map (fun line =>
      match (splitChar '|' line.data).map String.mk with
      | [] => ⟨"", none, ""⟩
      | [hash] => ⟨hash, none, ""⟩
      | hash :: date :: msgParts => ⟨hash, some date, String.intercalate "|" msgParts⟩)

/-- JS `\d`. -/
def digitChar (c : Char) : Bool :=
  '0' ≤ c ∧ c ≤ '9'

/-- JS `\w` (word character). -/
def wordChar (c : Char) : Bool :=
  ('A' ≤ c ∧ c ≤ 'Z') ∨ ('a' ≤ c ∧ c ≤ 'z') ∨ digitChar c ∨ c = '_'

/-- Match exactly `n` characters satisfying `p`; returns consumed and rest. -/
def matchN (p : Char → Bool) : Nat → List Char → Option (List Char × List Char)
  | 0, cs => some ([], cs)
  | _ + 1, [] => none
  | n + 1, c :: cs =>
    if p c then (matchN p n cs).map (fun r => (c :: r.1, r.2)) else none

/-- Match one or more characters satisfying `p`, maximal munch (sound here
because every follower class in the patterns below is disjoint from `p`). -/
def matchPlus (p : Char → Bool) (cs : List Char) : Option (List Char × List Char) :=
  let taken := cs.takeWhile p
  if taken = [] then none else some (taken, cs.drop taken.length)

/-- Match one literal character. -/
def matchLit (x : Char) : List Char → Option (List Char × List Char)
  | [] => none
  | c :: cs => if c = x then some ([c], cs) else none

/-- Match a literal string. -/
def matchStrL (lit : List Char) (cs : List Char) : Option (List Char × List Char) :=
  match lit with
  | [] => some ([], cs)
  | x :: xs =>
    match matchLit x cs with
    | none => none
    | some r =>
      match matchStrL xs r.2 with
      | none => none
      | some q => some (r.1 ++ q.1, q.2)

/-- The timestamp pattern after its leading day digits:
`-\w{3}-\d{4}\s+\d{2}:\d{2}\s+UTC`. -/
def tsTail (cs : List Char) : Option (List Char) := do
  let a ← matchLit '-' cs
  let b ← matchN wordChar 3 a.2
  let c ← matchLit '-' b.2
  let d ← matchN digitChar 4 c.2
  let e ← matchPlus wsChar d.2
  let f ← matchN digitChar 2 e.2
  let g ← matchLit ':' f.2
  let h ← matchN digitChar 2 g.2
  let i ← matchPlus wsChar h.2
  let j ← matchStrL "UTC".data i.2
  pure (a.1 ++ b.1 ++ c.1 ++ d.1 ++ e.1 ++ f.1 ++ g.1 ++ h.1 ++ i.1 ++ j.1)

/-- Try the timestamp pattern `\d{1,2}-\w{3}-\d{4}\s+\d{2}:\d{2}\s+UTC` at
one position (the greedy `{1,2}` tries two digits before one). -/
def tsAt (cs : List Char) : Option String :=
  match (matchN digitChar 2 cs).bind (fun r => (tsTail r.2).map (fun t => r.1 ++ t)) with
  | some m => some (String.mk m)
  | none =>
    match (matchN digitChar 1 cs).bind (fun r => (tsTail r.2).map (fun t => r.1 ++ t)) with
    | some m => some (String.mk m)
    | none => none

/-- Leftmost match: try the pattern at every position, left to right. -/
def searchFrom (f : List Char → Option String) : List Char → Option String
  | [] => none
  | c :: rest =>
    match f (c :: rest) with
    | some r => some r
    | none => searchFrom f rest

/-- `extractTimestamp(message)`: the first substring matching
`\d{1,2}-\w{3}-\d{4}\s+\d{2}:\d{2}\s+UTC`. -/
def extractTimestamp (message : String) : Option String :=
  searchFrom tsAt message.data

/-- Try the job-count pattern `([\d,]+)\s+(EMEA |APAC )?jobs` at one
position, returning the first capture group.  The optional group falls back
to matching `jobs` directly when its continuation fails. -/
def countAt (cs : List Char) : Option String := do
  let num ← matchPlus (fun c => digitChar c ∨ c = ',') cs
  let sp ← matchPlus wsChar num.2
  let tail := sp.2
  match (matchStrL "EMEA ".data tail).orElse (fun _ => matchStrL "APAC ".data tail) with
  | some r =>
    match matchStrL "jobs".data r.2 with
    | some _ => pure (String.mk num.1)
    | none => (matchStrL "jobs".data tail).map (fun _ => String.mk num.1)
  | none => (matchStrL "jobs".data tail).map (fun _ => String.mk num.1)

/-- `extractJobCount(message)`: the digit/comma group of the first match of
`([\d,]+)\s+(EMEA |APAC )?jobs`. -/
def extractJobCount (message : String) : Option String :=
  searchFrom countAt message.data

/-- One entry's contribution to the timestamp index: itself, when its
extracted timestamp is the key. -/
def tsHit (e : LogEntry) (ts : String) : Option LogEntry :=
  match extractTimestamp e.message with
  | some ts2 => if ts = ts2 then some e else none
  | none => none

/-- The timestamp-indexed map over one repo's log (`Map.set` in iteration
order: a later entry with the same timestamp overwrites an earlier one, so
a lookup returns the last matching entry; encoded head-recursively by
preferring the tail's match). -/
def byTs : List LogEntry → String → Option LogEntry
  | [] => fun _ => none
  | e :: rest => fun ts =>
    match byTs rest ts with
    | some r => some r
    | none => tsHit e ts

/-- The GitHub repository URLs of the three targets. -/
def GITHUB_MAIN : String := "https://github.com/7-of-9/wagey-gg-remote-tech-jobs"

/-- EMEA target repository URL. -/
def GITHUB_EMEA : String := "https://github.com/7-of-9/wagey-gg-remote-tech-emea-jobs"

/-- APAC target repository URL. -/
def GITHUB_APAC : String := "https://github.com/7-of-9/wagey-gg-remote-tech-apac-jobs"

/-- A linked short-hash cell for one log entry of a secondary repo. -/
def entryCell (repoUrl : String) (e : LogEntry) : String :=
  "[`" ++ takeStr e.hash 7 ++ "`](" ++ repoUrl ++ "/commit/" ++ e.hash ++ ") " ++
    jsOrStr (extractJobCount e.message) "?"

/-- The EMEA/APAC cell of one history row: the matching entry's cell, or
the `—` placeholder when the timestamp has no match in that repo's log. -/
def secondaryCell (index : String → Option LogEntry) (repoUrl : String) (ts : String) : String :=
  match index ts with
  | some e => entryCell repoUrl e
  | none => "—"

/-- One history row for a main-log entry, `none` when the entry lacks an
extractable timestamp or job count (non-data commits are skipped). -/
def historyRow (emeaIdx apacIdx : String → Option LogEntry) (entry : LogEntry) : Option String :=
  match extractTimestamp entry.message, extractJobCount entry.message with
  | some ts, some mainJobs =>
    let mainCell := "[`" ++ takeStr entry.hash 7 ++ "`](" ++ GITHUB_MAIN ++ "/commit/" ++
      entry.hash ++ ") " ++ mainJobs
    some ("| " ++ ts ++ " | " ++ mainCell ++ " | " ++ secondaryCell emeaIdx GITHUB_EMEA ts ++
      " | " ++ secondaryCell apacIdx GITHUB_APAC ts ++ " |")
  | _, _ => none

/-- All history rows: one per main-log entry carrying both a timestamp and
a job count. -/
def historyRows (mainLog emeaLog apacLog : List LogEntry) : List String :=
  mainLog.filterMap (historyRow (byTs emeaLog) (byTs apacLog))

/-- `buildHistoryTable`, as a function of the three repos' raw `git log`
outputs (`none` = unreadable log). -/
def buildHistoryTable (mainRaw emeaRaw apacRaw : Option String) : String :=
  let rows := historyRows (readGitLog mainRaw) (readGitLog emeaRaw) (readGitLog apacRaw)
  if rows.length = 0 then ""
  else "## Update History\n\n| Time (UTC) | Main | EMEA | APAC |\n|---|---|---|---|\n" ++
    String.intercalate "\n" rows ++ "\n"

/-! ## README templates and data JSON -/

/-- `REGION_LABELS[code]` (JS property access, `undefined` renders as the
string when interpolated). -/
def regionLabel (code : String) : String :=
  match REGION_LABELS.find? (fun p => p.1 = code) with
  | some p => p.2
  | none => "undefined"

/-- One row of the `Jobs by Region` table of the main README. -/
def regionRow (groups : Groups) (code : String) : String :=
  let label := regionLabel code
  let jobs := groups.get code
  let sal := (jobs.filter salaryTruthy).length
  let ver := (jobs.filter verifiedTruthy).length
  let linkedLabel :=
    if code = "EMEA" then "[" ++ label ++ "](https://github.com/7-of-9/wagey-gg-remote-tech-emea-jobs)"
    else if code = "APAC" then "[" ++ label ++ "](https://github.com/7-of-9/wagey-gg-remote-tech-apac-jobs)"
    else "[" ++ label ++ "](#" ++ lowerStr code ++ ")"
  "| " ++ linkedLabel ++ " | " ++ toLocaleString jobs.length ++ " | " ++
    toLocaleString sal ++ " | " ++ toLocaleString ver ++ " |"

/-- The `Remote Worldwide` section heading with its quoted count. -/
def wwHeading (groups : Groups) : String :=
  "## <a id=\"ww\"></a>Remote Worldwide (" ++ toLocaleString groups.WW.length ++ ")"

/-- The `North America` section heading with its quoted count. -/
def naHeading (groups : Groups) : String :=
  "## <a id=\"na\"></a>North America (" ++ toLocaleString groups.NA.length ++ ")"

/-- The `Latin America` section heading with its quoted count. -/
def latamHeading (groups : Groups) : String :=
  "## <a id=\"latam\"></a>Latin America (" ++ toLocaleString groups.LATAM.length ++ ")"

/-- `mainReadme`: the overview document of the primary target.  `nowDV`
models `new Date().toISOString()` at stamp time and `nowMs` the ambient
`Date.now()` of the age column. -/
def mainReadme (groups : Groups) (allJobs : List Job) (logos : List (String × String))
    (historyTable : String) (nowDV : DateVal) (nowMs : Int) : String :=
  let totalJobs := allJobs.length
  let totalSalary := (allJobs.filter salaryTruthy).length
  let totalVerified := (allJobs.filter verifiedTruthy).length
  let now := fmtDateTime nowDV
  "# Remote Tech Jobs — Updated Hourly\n\n" ++
  "> Every job is checked against the employer's live careers page. Every job can be applied to in one click at [wagey.gg](https://wagey.gg?ref=" ++ REF ++ ").\n\n" ++
  "## Jobs by Region\n\n" ++
  "| Region | Jobs | With Salary | Verified |\n|--------|------|-------------|----------|\n" ++
  String.intercalate "\n" (["WW", "NA", "LATAM", "EMEA", "APAC"].map (regionRow groups)) ++ "\n" ++
  "| **Total as of " ++ now ++ "** | **" ++ toLocaleString totalJobs ++ "** | **" ++
    toLocaleString totalSalary ++ "** | **" ++ toLocaleString totalVerified ++ "** |\n\n" ++
  "> Upload your CV at [wagey.gg](https://wagey.gg?ref=" ++ REF ++ ") for smart matching and one-click apply.\n\n" ++
  "## How It Works\n\n" ++
  "1. **Scrape** thousands of job boards, company career pages, and ATS platforms daily\n" ++
  "2. **Verify** every job is still live on the employer's site — dead links are removed automatically\n" ++
  "3. **Tag** each job with skills, seniority, salary, and region using AI extraction\n" ++
  "4. **Apply** in one click via [wagey.gg](https://wagey.gg?ref=" ++ REF ++ ") — upload your CV once, then auto-apply to any job\n\n" ++
  "## Other Regions\n\n" ++
  "- [**Europe & Middle East**](https://github.com/7-of-9/wagey-gg-remote-tech-emea-jobs) — " ++
    toLocaleString groups.EMEA.length ++ " jobs\n" ++
  "- [**Asia-Pacific**](https://github.com/7-of-9/wagey-gg-remote-tech-apac-jobs) — " ++
    toLocaleString groups.APAC.length ++ " jobs\n\n" ++
  "---\n\n" ++
  wwHeading groups ++ "\n\nTrue remote — no location restriction.\n\n" ++
  jobTable nowMs groups.WW logos 500 ++ "\n\n---\n\n" ++
  naHeading groups ++ "\n\n" ++
  jobTable nowMs groups.NA logos 500 ++ "\n\n---\n\n" ++
  latamHeading groups ++ "\n\n" ++
  jobTable nowMs groups.LATAM logos 500 ++ "\n\n---\n\n" ++
  historyTable ++ "\n\n*Updated automatically every hour. Powered by [wagey.gg](https://wagey.gg?ref=" ++ REF ++ ").*\n"

/-- `regionReadme`: the standalone document of a secondary target. -/
def regionReadme (regionCode regionLabelArg : String) (jobs : List Job) (allGroups : Groups)
    (logos : List (String × String)) (historyTable : String) (nowDV : DateVal) (nowMs : Int) :
    String :=
  let totalJobs := jobs.length
  let withSalary := (jobs.filter salaryTruthy).length
  let verified := (jobs.filter verifiedTruthy).length
  let now := fmtDateTime nowDV
  "# Remote Tech Jobs — " ++ regionLabelArg ++ " — Updated Hourly\n\n" ++
  "> Every job is checked against the employer's live careers page. Every job can be applied to in one click at [wagey.gg](https://wagey.gg?ref=" ++ REF ++ ").\n\n" ++
  "| | Jobs | With Salary | Verified |\n|--|------|-------------|----------|\n" ++
  "| **" ++ regionLabelArg ++ " as of " ++ now ++ "** | **" ++ toLocaleString totalJobs ++
    "** | **" ++ toLocaleString withSalary ++ "** | **" ++ toLocaleString verified ++ "** |\n\n" ++
  "> Upload your CV at [wagey.gg](https://wagey.gg?ref=" ++ REF ++ ") for smart matching and one-click apply.\n\n" ++
  "## Other Regions\n\n" ++
  "- [**All regions (main list)**](https://github.com/7-of-9/wagey-gg-remote-tech-jobs)\n" ++
  (if regionCode ≠ "EMEA" then
    "- [**Europe & Middle East**](https://github.com/7-of-9/wagey-gg-remote-tech-emea-jobs) — " ++
      toLocaleString allGroups.EMEA.length ++ " jobs\n"
   else "") ++
  (if regionCode ≠ "APAC" then
    "- [**Asia-Pacific**](https://github.com/7-of-9/wagey-gg-remote-tech-apac-jobs) — " ++
      toLocaleString allGroups.APAC.length ++ " jobs\n"
   else "") ++
  "\n---\n\n## Jobs\n\n" ++
  jobTable nowMs jobs logos 500 ++ "\n\n---\n\n" ++
  historyTable ++ "\n\n*Updated automatically every hour. Powered by [wagey.gg](https://wagey.gg?ref=" ++ REF ++ ").*\n"

/-- One simplified record of the machine-readable export (`data/jobs.json`).
`Option` fields model JSON `null` (or a key dropped by `JSON.stringify` for
an `undefined` pass-through field, which only `title`/`region` can be). -/
structure DataEntry where
  id : String
  title : Option String
  company : Option String
  region : Option String
  salary : String
  salaryMin : Option Nat
  salaryMax : Option Nat
  skills : List String
  seniority : Option String
  ats : Option String
  verifiedAt : Option String
  scrapedAt : Option String
  url : Option String
  visibility : String

deriving instance DecidableEq for DataEntry

/-- `x || null` on a date-string field: the raw string, or `null` when
falsy. -/
def dateOrNull (d : Option DateStr) : Option String :=
  match d with
  | none => none
  | some ds => if ds.raw = "" then none else some ds.raw

/-- `x || null` on a numeric field. -/
def natOrNull (o : Option Nat) : Option Nat :=
  if truthyNat o then o else none

/-- `x || null` on a string field. -/
def strOrNull (o : Option String) : Option String :=
  if truthyStr o then o else none

/-- The element mapper of `buildDataJson`. -/
def buildDataJsonEntry (j : Job) : DataEntry :=
  let isTeaser := j.visibility = some "teaser"
  { id := j.id
    title := j.title
    company := if isTeaser then none else j.company
    region := j.region
    salary := fmtSalary j
    salaryMin := natOrNull j.salaryMin
    salaryMax := natOrNull j.salaryMax
    skills := parseSkills j.skills
    seniority := strOrNull j.seniority
    ats := strOrNull j.ats
    verifiedAt := dateOrNull j.verifiedAt
    scrapedAt := dateOrNull j.scrapedAt
    url := if isTeaser then none else some (jobUrl j)
    visibility := jsOrStr j.visibility "full" }

/-- `buildDataJson`. -/
def buildDataJson (jobs : List Job) : List DataEntry :=
  jobs.map buildDataJsonEntry

/-! ## Main -/

/-- The three output targets. -/
inductive RepoId where
  | main
  | emea
  | apac

deriving instance DecidableEq for RepoId

/-- Content handed to `writeFileSync` (the JSON export is kept structured;
its serialisation is `JSON.stringify(·, null, 2)`). -/
inductive WriteContent where
  | text (s : String)
  | json (entries : List DataEntry)

deriving instance DecidableEq for WriteContent

/-- One performed write: target repo, relative path, content. -/
structure WriteEvent where
  repo : RepoId
  path : String
  content : WriteContent

deriving instance DecidableEq for WriteEvent

/-- How a run of `main` ends: `process.exit(code)` or normal completion,
with the file writes performed up to that point. -/
inductive MainOutcome where
  | exited (code : Nat) (writes : List WriteEvent)
  | completed (writes : List WriteEvent)

deriving instance DecidableEq for MainOutcome

/-- Everything `main` consumes after a successful fetch: the fetched data,
the ambient clock (`new Date()` for stamps, `Date.now()` for ages), the
three repos' raw git logs, and the dry-run flag. -/
structure MainInput where
  jobs : List Job
  meta : Option MetaObj
  nowDV : DateVal
  nowMs : Int
  mainRaw : Option String
  emeaRaw : Option String
  apacRaw : Option String
  dryRun : Bool

/-- `main` after `fetchJobs` resolves: the empty-feed guard runs before any
write; a TypeError thrown by `groupByRegion` (prototype-chain region code)
propagates to `main().catch`, which exits 1 with nothing written; otherwise
the three targets are written in order (README, JSON export, commit message
for main, then EMEA, then APAC).  In dry-run mode no write is performed. -/
def mainRun (inp : MainInput) : MainOutcome :=
  if inp.jobs.length = 0 then .exited 1 []
  else
    let logos := match inp.meta with
      | some m => m.companyLogos
      | none => []
    match groupByRegion inp.jobs with
    | .error _ => .exited 1 []
    | .ok groups =>
      let totalSalary := (inp.jobs.filter salaryTruthy).length
      let totalVerified := (inp.jobs.filter verifiedTruthy).length
      let teaserCount := (inp.jobs.filter (fun j => j.visibility = some "teaser")).length
      let now := fmtDateTime inp.nowDV
      let mainMsg := toLocaleString inp.jobs.length ++ " jobs | " ++ toLocaleString totalSalary ++
        " with salary | " ++ toLocaleString totalVerified ++ " verified | " ++
        toString teaserCount ++ " Pro teasers — " ++ now
      let emeaMsg := toLocaleString groups.EMEA.length ++ " EMEA jobs | " ++
        toLocaleString (groups.EMEA.filter salaryTruthy).length ++ " with salary | " ++
        toLocaleString (groups.EMEA.filter verifiedTruthy).length ++ " verified — " ++ now
      let apacMsg := toLocaleString groups.APAC.length ++ " APAC jobs | " ++
        toLocaleString (groups.APAC.filter salaryTruthy).length ++ " with salary | " ++
        toLocaleString (groups.APAC.filter verifiedTruthy).length ++ " verified — " ++ now
      let historyTable := buildHistoryTable inp.mainRaw inp.emeaRaw inp.apacRaw
      let writes : List WriteEvent :=
        if inp.dryRun then []
        else
          [⟨.main, "README.md", .text (mainReadme groups inp.jobs logos historyTable inp.nowDV inp.nowMs)⟩,
           ⟨.main, "data/jobs.json", .json (buildDataJson inp.jobs)⟩,
           ⟨.main, "data/commit-msg.txt", .text mainMsg⟩,
           ⟨.emea, "README.md", .text (regionReadme "EMEA" "Europe & Middle East" groups.EMEA groups logos historyTable inp.nowDV inp.nowMs)⟩,
           ⟨.emea, "data/jobs.json", .json (buildDataJson groups.EMEA)⟩,
           ⟨.emea, "data/commit-msg.txt", .text emeaMsg⟩,
           ⟨.apac, "README.md", .text (regionReadme "APAC" "Asia-Pacific" groups.APAC groups logos historyTable inp.nowDV inp.nowMs)⟩,
           ⟨.apac, "data/jobs.json", .json (buildDataJson groups.APAC)⟩,
           ⟨.apac, "data/commit-msg.txt", .text apacMsg⟩]
      .completed writes

/-- The writes of an outcome. -/
def MainOutcome.writes : MainOutcome → List WriteEvent
  | .exited _ w => w
  | .completed w => w

/-! ## Shared concrete test fixtures -/

/-- A plain full-visibility remote job used as a base for concrete inputs. -/
def cJobBase : Job :=
  { id := "j1"
    title := some "Engineer"
    company := some "Acme"
    region := some "WW"
    isRemote := true
    location := none
    salary := none
    salaryMin := none
    salaryMax := none
    skills := none
    seniority := none
    ats := none
    verifiedAt := none
    scrapedAt := none
    visibility := some "full" }

/-! ## C10 — fmtAge -/

/-- C10: `fmtAge` is total: a falsy input yields the empty string, any
parseable timestamp whose elapsed time is under one hour — negative
(future) elapsed times included — yields `"<1h"`, and even an unparseable
timestamp yields a string (`"NaNd"`), never an error. -/
theorem fmtAge_spec (nowMs : Int) :
    fmtAge nowMs none = "" ∧
    (∀ ds : DateStr, ds.raw = "" → fmtAge nowMs (some ds) = "") ∧
    (∀ (ds : DateStr) (t : Int), ds.raw ≠ "" → ds.time = some t → nowMs - t < 3600000 →
      fmtAge nowMs (some ds) = "<1h") ∧
    (∀ ds : DateStr, ds.raw ≠ "" → ds.time = none → fmtAge nowMs (some ds) = "NaNd") := by
  refine ⟨rfl, ?_, ?_, ?_⟩
  · intro ds h
    simp [fmtAge, h]
  · intro ds t hraw ht hlt
    have h1 : (nowMs - t) / 3600000 < 1 := by omega
    simp [fmtAge, hraw, ht, jsFloorDiv, jsLtNum, h1]
  · intro ds hraw ht
    simp [fmtAge, hraw, ht, jsLtNum, jsEqNum, jsNumStr]

/-- C10 witness: a timestamp two hours in the future (negative elapsed
time) renders as `"<1h"`. -/
theorem fmtAge_spec_witness :
    fmtAge 0 (some ⟨"2026-01-01T02:00:00Z", some 7200000⟩) = "<1h" :=
  (fmtAge_spec 0).2.2.1 ⟨"2026-01-01T02:00:00Z", some 7200000⟩ 7200000 (by decide) rfl (by decide)

/-! ## C9 — fmtSalary / fmtK -/

/-- C9 counterexample: a record whose only bound is `salaryMax` renders as
`"$100k/year"`, with no `"+"` suffix anywhere — refuting the claim that
single-bound values get a `"+"` suffix. -/
theorem fmtSalary_max_only_no_plus :
    fmtSalary { cJobBase with salaryMax := some 100000 } = "$100k/year" ∧
    ¬ ('+' ∈ (fmtSalary { cJobBase with salaryMax := some 100000 }).data) := by
  constructor
  · rfl
  · decide

/-- C9 (amended): `fmtSalary` renders equal bounds as one compacted value,
differing bounds as an en-dash range, a lone `salaryMin` with a `"+"`
suffix, and a lone `salaryMax` with no `"+"`; all four carry the `"/year"`
unit.  `fmtK` compacts values ≥ 1000 to `$⌊(n+500)/1000⌋k` (round half-up)
and renders smaller values verbatim, e.g. `1200 ↦ "$1k"`, `950 ↦ "$950"`,
`1500000 ↦ "$1500k"`. -/
theorem fmtSalary_cases (j : Job) :
    (truthyNat j.salaryMin = true → truthyNat j.salaryMax = true → j.salaryMin = j.salaryMax →
      fmtSalary j = fmtK (j.salaryMin.getD 0) ++ "/year") ∧
    (truthyNat j.salaryMin = true → truthyNat j.salaryMax = true → j.salaryMin ≠ j.salaryMax →
      fmtSalary j = fmtK (j.salaryMin.getD 0) ++ "–" ++ fmtK (j.salaryMax.getD 0) ++ "/year") ∧
    (truthyNat j.salaryMin = true → truthyNat j.salaryMax = false →
      fmtSalary j = fmtK (j.salaryMin.getD 0) ++ "+/year") ∧
    (truthyNat j.salaryMin = false → truthyNat j.salaryMax = true →
      fmtSalary j = fmtK (j.salaryMax.getD 0) ++ "/year") ∧
    (truthyNat j.salaryMin = false → truthyNat j.salaryMax = false → fmtSalary j = "") ∧
    (∀ n : Nat, 1000 ≤ n → fmtK n = "$" ++ toString ((n + 500) / 1000) ++ "k") ∧
    (∀ n : Nat, n < 1000 → fmtK n = "$" ++ toString n) ∧
    fmtK 1200 = "$1k" ∧ fmtK 950 = "$950" ∧ fmtK 1500000 = "$1500k" := by
  refine ⟨?_, ?_, ?_, ?_, ?_, ?_, ?_, rfl, rfl, rfl⟩
  · intro h1 h2 h3
    simp [fmtSalary, h1, h2, h3]
  · intro h1 h2 h3
    simp [fmtSalary, h1, h2, h3]
  · intro h1 h2
    simp [fmtSalary, h1, h2]
  · intro h1 h2
    simp [fmtSalary, h1, h2]
  · intro h1 h2
    simp [fmtSalary, h1, h2]
  · intro n h
    simp [fmtK, h]
  · intro n h
    have h2 : ¬ (1000 ≤ n) := by omega
    simp [fmtK, h2]

/-- C9 witness: a record with bounds 90000 and 120000 renders as the
compacted en-dash range. -/
theorem fmtSalary_cases_witness :
    fmtSalary { cJobBase with salaryMin := some 90000, salaryMax := some 120000 } =
      fmtK 90000 ++ "–" ++ fmtK 120000 ++ "/year" :=
  (fmtSalary_cases { cJobBase with salaryMin := some 90000, salaryMax := some 120000 }).2.1
    (by decide) (by decide) (by decide)

/-! ## C6 — retry exhaustion on 503 -/

/-- C6: when every attempt yields a 503 (whatever the body), `fetchJobs`
makes exactly 5 attempts, sleeps 3 s, 6 s, 12 s, 24 s between consecutive
attempts, and propagates the last error. -/
theorem fetch_503_exhausts (bodies : Nat → List ParsedLine) :
    fetchJobs (fun a => .response 503 (bodies a)) =
      ⟨5, [3000, 6000, 12000, 24000], .error (.apiError 503)⟩ := by
  rfl

/-! ## C1 — non-retryable status is in fact retried (code bug) -/

/-- Environment for the C1 probe: a 404 on the first attempt, a clean 2xx
with one job line afterwards. -/
def c1Env : Nat → AttemptOutcome := fun a =>
  if a = 1 then .response 404 [] else .response 200 [ParsedLine.job cJobBase]

/-- C1: the code evaluated at its failing input.  A 404 — non-5xx,
non-429 — on attempt 1 does **not** fail immediately: the thrown
`apiError` is caught by the generic retry handler, the fetcher sleeps the
3 s backoff, makes a second attempt, and even succeeds.  (The claim and
the code's own `isRetryable` distinction say a 404 must propagate with no
further attempt.) -/
theorem fetch_404_retries :
    fetchJobs c1Env = ⟨2, [3000], .ok ([cJobBase], none)⟩ ∧
    (fetchJobs c1Env).attempts ≠ 1 := by
  exact ⟨rfl, by decide⟩

/-! ## C2 — parse errors are retried, not immediately fatal -/

/-- Environment for the C2 counterexample: a 2xx response whose only line
is malformed on attempt 1, a clean 2xx with one job line afterwards. -/
def c2Env : Nat → AttemptOutcome := fun a =>
  if a = 1 then .response 200 [ParsedLine.bad] else .response 200 [ParsedLine.job cJobBase]

/-- C2 counterexample: a malformed line in a 2xx body on attempt 1 does not
propagate to the caller — the fetch sleeps 3 s, retries, and returns the
second attempt's jobs, refuting "no further fetch attempt". -/
theorem parse_error_retried_cex :
    fetchJobs c2Env = ⟨2, [3000], .ok ([cJobBase], none)⟩ ∧
    (fetchJobs c2Env).attempts ≠ 1 := by
  exact ⟨rfl, by decide⟩

/-- A malformed line anywhere in the body makes the line loop throw. -/
theorem parseLines_of_bad {l : List ParsedLine} (h : ParsedLine.bad ∈ l) :
    ∀ (jobs : List Job) (meta : Option MetaObj), parseLines l jobs meta = .error .parseError := by
  induction l with
  | nil => cases h
  | cons x xs ih =>
    intro jobs meta
    cases x with
    | bad => rfl
    | meta m =>
      have hx : ParsedLine.bad ∈ xs := by
        cases h with
        | tail _ h2 => exact h2
      exact ih hx jobs (some m)
    | job j =>
      have hx : ParsedLine.bad ∈ xs := by
        cases h with
        | tail _ h2 => exact h2
      exact ih hx (j :: jobs) meta
    | other =>
      have hx : ParsedLine.bad ∈ xs := by
        cases h with
        | tail _ h2 => exact h2
      exact ih hx jobs meta

/-- C2 (amended): a malformed line fails the whole parse of that attempt
(no partial-line recovery), but the resulting exception is handled like any
transient failure: it is retried with the usual backoff and only propagates
to the caller when it still occurs on the final attempt.  Here: if every
attempt returns a 2xx body containing a malformed line, the fetch makes all
5 attempts, sleeps 3 s, 6 s, 12 s, 24 s, and propagates the parse error. -/
theorem parse_error_retried (lines : Nat → List ParsedLine)
    (hbad : ∀ a, ParsedLine.bad ∈ lines a) :
    fetchJobs (fun a => .response 200 (lines a)) =
      ⟨5, [3000, 6000, 12000, 24000], .error .parseError⟩ := by
  have htb : ∀ a, tryBody (.response 200 (lines a)) a = .threw .parseError := by
    intro a
    simp [tryBody, respOk, parseLines_of_bad (hbad a)]
  show fetchGo (fun a => .response 200 (lines a)) MAX_RETRIES 1 = _
  rw [show MAX_RETRIES = 4 + 1 from rfl]
  rw [fetchGo, htb 1]
  simp only [MAX_RETRIES, delayFor, INITIAL_DELAY_MS, reduceIte]
  rw [show (4 : Nat) = 3 + 1 from rfl, fetchGo, htb 2]
  simp only [MAX_RETRIES, delayFor, INITIAL_DELAY_MS, reduceIte]
  rw [show (3 : Nat) = 2 + 1 from rfl, fetchGo, htb 3]
  simp only [MAX_RETRIES, delayFor, INITIAL_DELAY_MS, reduceIte]
  rw [show (2 : Nat) = 1 + 1 from rfl, fetchGo, htb 4]
  simp only [MAX_RETRIES, delayFor, INITIAL_DELAY_MS, reduceIte]
  rw [show (1 : Nat) = 0 + 1 from rfl, fetchGo, htb 5]
  simp [MAX_RETRIES, delayFor, INITIAL_DELAY_MS]

/-- C2 amended-theorem witness: with a single malformed line on every
attempt the fetch exhausts all 5 attempts and propagates the parse error. -/
theorem parse_error_retried_witness :
    fetchJobs (fun _ => .response 200 [ParsedLine.bad]) =
      ⟨5, [3000, 6000, 12000, 24000], .error .parseError⟩ :=
  parse_error_retried (fun _ => [ParsedLine.bad]) (fun _ => List.Mem.head _)

/-! ## C7 — empty feed aborts before any write -/

/-- C7: a successful fetch with zero job records makes `main` exit with the
non-zero status 1 before any write: no output file of any target is written
or overwritten. -/
theorem empty_feed_aborts (inp : MainInput) (h : inp.jobs = []) :
    mainRun inp = .exited 1 [] ∧ (mainRun inp).writes = [] := by
  have hlen : inp.jobs.length = 0 := by rw [h]; rfl
  constructor
  · simp [mainRun, hlen]
  · simp [mainRun, hlen, MainOutcome.writes]

/-- C7 witness: a concrete empty-feed run exits with status 1 and performs
no write. -/
theorem empty_feed_aborts_witness :
    mainRun ⟨[], none, .absent, 0, none, none, none, false⟩ = .exited 1 [] :=
  (empty_feed_aborts ⟨[], none, .absent, 0, none, none, none, false⟩ rfl).1

/-! ## C4 — groupByRegion bucket assignment -/

/-- The five region codes (the own-keys of the groups object). -/
def regionCodes : List String := ["WW", "EMEA", "APAC", "NA", "LATAM"]

/-- The bucket a single record is routed to on the normal path, read off
the branch structure of `groupByRegion`/`groupsOf` (`none` = dropped). -/
def destination (j : Job) : Option String :=
  if isGarbageJob j then none
  else
    let region := jsOrStr j.region "WW"
    if region = "WW" then (if j.isRemote then some "WW" else none)
    else if region = "EMEA" ∨ region = "APAC" ∨ region = "NA" ∨ region = "LATAM" then some region
    else none

/-- Every bucket of the empty assignment is empty. -/
theorem Groups.empty_get (c : String) : Groups.empty.get c = [] := by
  simp [Groups.empty, Groups.get]

/-- One step of `groupsOf`, per bucket: the head is prepended to its
destination bucket and to no other. -/
theorem groupsOf_cons_get (job : Job) (rest : List Job) (c : String) :
    (groupsOf (job :: rest)).get c =
      if destination job = some c then job :: (groupsOf rest).get c
      else (groupsOf rest).get c := by
  show (let g := groupsOf rest;
    if isGarbageJob job then g
    else
      let region := jsOrStr job.region "WW"
      if region = "WW" then
        (if job.isRemote then { g with WW := job :: g.WW } else g)
      else if region = "EMEA" then { g with EMEA := job :: g.EMEA }
      else if region = "APAC" then { g with APAC := job :: g.APAC }
      else if region = "NA" then { g with NA := job :: g.NA }
      else if region = "LATAM" then { g with LATAM := job :: g.LATAM }
      else g).get c = _
  by_cases hg : isGarbageJob job
  · simp [destination, hg]
  · simp only [hg, if_false, Bool.false_eq_true]
    by_cases hww : jsOrStr job.region "WW" = "WW"
    · by_cases hr : job.isRemote
      · simp only [hww, hr, if_true, reduceIte]
        by_cases hc : c = "WW" <;>
          simp [destination, hg, hww, hr, hc, Groups.get, eq_comm]
      · simp only [hww, hr, reduceIte]
        simp [destination, hg, hww, hr]
    · by_cases he : jsOrStr job.region "WW" = "EMEA"
      · simp only [hww, he, reduceIte]
        by_cases hc : c = "EMEA" <;>
          simp [destination, hg, hww, he, hc, Groups.get, eq_comm]
      · by_cases ha : jsOrStr job.region "WW" = "APAC"
        · simp only [hww, he, ha, reduceIte]
          by_cases hc : c = "APAC" <;>
            simp [destination, hg, hww, he, ha, hc, Groups.get, eq_comm]
        · by_cases hn : jsOrStr job.region "WW" = "NA"
          · simp only [hww, he, ha, hn, reduceIte]
            by_cases hc : c = "NA" <;>
              simp [destination, hg, hww, he, ha, hn, hc, Groups.get, eq_comm]
          · by_cases hl : jsOrStr job.region "WW" = "LATAM"
            · simp only [hww, he, ha, hn, hl, reduceIte]
              by_cases hc : c = "LATAM" <;>
                simp [destination, hg, hww, he, ha, hn, hl, hc, Groups.get, eq_comm]
            · simp [destination, hg, hww, he, ha, hn, hl]

/-- Membership characterisation of `groupsOf`: a record sits in bucket
`c` iff it occurs in the input and `c` is its destination. -/
theorem mem_groupsOf (jobs : List Job) (j : Job) (c : String) :
    j ∈ (groupsOf jobs).get c ↔ j ∈ jobs ∧ destination j = some c := by
  induction jobs with
  | nil =>
    show j ∈ Groups.empty.get c ↔ _
    simp [Groups.empty_get]
  | cons job rest ih =>
    rw [groupsOf_cons_get]
    by_cases hd : destination job = some c
    · simp only [hd, if_true, List.mem_cons, ih, reduceIte]
      constructor
      · rintro (rfl | ⟨hm, hdj⟩)
        · exact ⟨Or.inl rfl, hd⟩
        · exact ⟨Or.inr hm, hdj⟩
      · rintro ⟨rfl | hm, hdj⟩
        · exact Or.inl rfl
        · exact Or.inr ⟨hm, hdj⟩
    · simp only [hd, if_false, ih, List.mem_cons, reduceIte]
      constructor
      · rintro ⟨hm, hdj⟩
        exact ⟨Or.inr hm, hdj⟩
      · rintro ⟨rfl | hm, hdj⟩
        · exact absurd hdj hd
        · exact ⟨hm, hdj⟩

/-- On a crasher-free input, `groupByRegion` succeeds with the normal-path
bucket assignment. -/
theorem groupByRegion_eq_ok (jobs : List Job)
    (h : ∀ x ∈ jobs, regionLookupThrows x = false) :
    groupByRegion jobs = .ok (groupsOf jobs) := by
  induction jobs with
  | nil => rfl
  | cons job rest ih =>
    have hrest : groupByRegion rest = .ok (groupsOf rest) :=
      ih (fun x hx => h x (List.mem_cons_of_mem _ hx))
    have hj : regionLookupThrows job = false := h job (List.Mem.head _)
    simp only [groupByRegion, groupsOf]
    by_cases hg : isGarbageJob job
    · simp [hg, hrest]
    · have hproto : ¬ (jsOrStr job.region "WW" ∈ protoKeys) := by
        intro hp
        rw [regionLookupThrows] at hj
        simp [hg, hp] at hj
      by_cases hww : jsOrStr job.region "WW" = "WW"
      · by_cases hr : job.isRemote <;> simp [hg, hww, hr, hrest, Except.map]
      · by_cases he : jsOrStr job.region "WW" = "EMEA"
        · simp [hg, hww, he, hrest, Except.map]
        · by_cases ha : jsOrStr job.region "WW" = "APAC"
          · simp [hg, hww, he, ha, hrest, Except.map]
          · by_cases hn : jsOrStr job.region "WW" = "NA"
            · simp [hg, hww, he, ha, hn, hrest, Except.map]
            · by_cases hl : jsOrStr job.region "WW" = "LATAM"
              · simp [hg, hww, he, ha, hn, hl, hrest, Except.map]
              · simp [hg, hww, he, ha, hn, hl, hproto, hrest]

/-- C4 counterexample: a record whose region code is an `Object.prototype`
property name (here `"toString"`) is not dropped — `groups[region]` is
truthy via the prototype chain and `.push` throws a TypeError, aborting the
whole run, so not even the well-coded EMEA record of the same feed reaches
its bucket. -/
theorem groupByRegion_proto_cex :
    groupByRegion [{ cJobBase with region := some "EMEA" },
        { cJobBase with region := some "toString" }] =
      .error "TypeError: groups[region].push is not a function" ∧
    ¬ ∃ g : Groups,
        groupByRegion [{ cJobBase with region := some "EMEA" },
          { cJobBase with region := some "toString" }] = .ok g ∧
        { cJobBase with region := some "EMEA" } ∈ g.get "EMEA" := by
  refine ⟨rfl, ?_⟩
  rintro ⟨g, hg, -⟩
  rw [show groupByRegion [{ cJobBase with region := some "EMEA" },
      { cJobBase with region := some "toString" }] =
    .error "TypeError: groups[region].push is not a function" from rfl] at hg
  cases hg

/-- C4 (amended): provided no record carries a region code inherited from
`Object.prototype` (those crash the run with a TypeError instead of being
dropped — see the counterexample), `groupByRegion` completes, and in the
resulting assignment: a garbage-titled record lands in no bucket; a record
whose region field is falsy (absent/empty, the code's notion of "absent")
or `WW` lands in the WW bucket iff `isRemote`, and in no other bucket; a
record coded to a recognised non-WW region lands in exactly that bucket;
a record coded to any other unrecognised region lands in no bucket. -/
theorem groupByRegion_spec (jobs : List Job) (j : Job)
    (hsafe : ∀ x ∈ jobs, regionLookupThrows x = false) :
    groupByRegion jobs = .ok (groupsOf jobs) ∧
    (isGarbageJob j = true → ∀ c : String, j ∉ (groupsOf jobs).get c) ∧
    (isGarbageJob j = false → jsOrStr j.region "WW" = "WW" →
      ((j ∈ (groupsOf jobs).WW ↔ j ∈ jobs ∧ j.isRemote = true) ∧
        ∀ c : String, c ≠ "WW" → j ∉ (groupsOf jobs).get c)) ∧
    (isGarbageJob j = false → ∀ c : String, j.region = some c →
      c ∈ (["EMEA", "APAC", "NA", "LATAM"] : List String) →
      ((j ∈ (groupsOf jobs).get c ↔ j ∈ jobs) ∧
        ∀ c2 : String, c2 ≠ c → j ∉ (groupsOf jobs).get c2)) ∧
    (∀ c : String, j.region = some c → c ∉ regionCodes → c ≠ "" →
      ∀ c2 : String, j ∉ (groupsOf jobs).get c2) := by
  refine ⟨groupByRegion_eq_ok jobs hsafe, ?_, ?_, ?_, ?_⟩
  · intro hg c
    rw [mem_groupsOf]
    rintro ⟨_, hd⟩
    simp [destination, hg] at hd
  · intro hg hww
    have hWWget : (groupsOf jobs).WW = (groupsOf jobs).get "WW" := rfl
    constructor
    · rw [hWWget, mem_groupsOf]
      by_cases hr : j.isRemote <;> simp [destination, hg, hww, hr]
    · intro c hc
      rw [mem_groupsOf]
      rintro ⟨_, hd⟩
      by_cases hr : j.isRemote <;> simp [destination, hg, hww, hr] at hd
      exact hc hd.symm
  · intro hg c hreg hmem
    have hc4 : c = "EMEA" ∨ c = "APAC" ∨ c = "NA" ∨ c = "LATAM" := by simpa using hmem
    have hdest : destination j = some c := by
      rcases hc4 with rfl | rfl | rfl | rfl <;> simp [destination, hg, jsOrStr, hreg]
    constructor
    · rw [mem_groupsOf, hdest]
      simp
    · intro c2 hc2
      rw [mem_groupsOf, hdest]
      rintro ⟨_, hd⟩
      exact hc2 (Option.some.injEq _ _ ▸ hd).symm
  · intro c hreg hnotin hne c2
    have hne2 : c ≠ "WW" ∧ c ≠ "EMEA" ∧ c ≠ "APAC" ∧ c ≠ "NA" ∧ c ≠ "LATAM" := by
      simp [regionCodes] at hnotin
      exact ⟨hnotin.1, hnotin.2.1, hnotin.2.2.1, hnotin.2.2.2.1, hnotin.2.2.2.2⟩
    rw [mem_groupsOf]
    rintro ⟨_, hd⟩
    simp [destination, jsOrStr, hreg, hne, hne2.1, hne2.2.1, hne2.2.2.1, hne2.2.2.2.1,
      hne2.2.2.2.2] at hd

/-- C4 amended-theorem witness: on a crasher-free feed `groupByRegion`
succeeds; a garbage-titled record is bucketed nowhere; a non-remote WW
record is kept out of the WW bucket; an EMEA-coded record lands in the EMEA
bucket; a record with the unrecognised (non-prototype) code `MARS` is
bucketed nowhere. -/
theorem groupByRegion_spec_witness :
    groupByRegion [{ cJobBase with title := some " Open Positions " }] =
      .ok (groupsOf [{ cJobBase with title := some " Open Positions " }]) ∧
    ({ cJobBase with title := some " Open Positions " } ∉
      (groupsOf [{ cJobBase with title := some " Open Positions " }]).get "WW") ∧
    ({ cJobBase with isRemote := false } ∉
      (groupsOf [{ cJobBase with isRemote := false }]).WW) ∧
    ({ cJobBase with region := some "EMEA" } ∈
      (groupsOf [{ cJobBase with region := some "EMEA" }]).get "EMEA") ∧
    ({ cJobBase with region := some "MARS" } ∉
      (groupsOf [{ cJobBase with region := some "MARS" }]).get "NA") := by
  refine ⟨?_, ?_, ?_, ?_, ?_⟩
  · exact (groupByRegion_spec _ { cJobBase with title := some " Open Positions " }
      (by decide)).1
  · exact (groupByRegion_spec _ _ (by decide)).2.1 (by decide) "WW"
  · intro hmem
    exact absurd
      ((((groupByRegion_spec [{ cJobBase with isRemote := false }] _ (by decide)).2.2.1
        (by decide) (by decide)).1).mp hmem).2 (by decide)
  · exact (((groupByRegion_spec [{ cJobBase with region := some "EMEA" }] _
      (by decide)).2.2.2.1 (by decide) "EMEA" rfl (by decide)).1).mpr (List.Mem.head _)
  · exact (groupByRegion_spec [{ cJobBase with region := some "MARS" }] _
      (by decide)).2.2.2.2 "MARS" rfl (by decide) (by decide) "NA"

/-- C6 witness: the all-503 environment with empty bodies concretely makes
5 attempts with the 3/6/12/24 s backoff ladder. -/
theorem fetch_503_exhausts_witness :
    fetchJobs (fun _ => .response 503 []) =
      ⟨5, [3000, 6000, 12000, 24000], .error (.apiError 503)⟩ :=
  fetch_503_exhausts (fun _ => [])

/-! ## C5 — teaser redaction -/

/-- C5: a teaser record's machine-readable export nulls both `company` and
`url`; its document apply cell is the upgrade call-to-action, not the job's
direct link; and neither output depends on the company field at all — two
teaser records differing only in `company` produce identical exports and
identical table rows. -/
theorem teaser_redaction (j : Job) (h : j.visibility = some "teaser") :
    (buildDataJsonEntry j).company = none ∧
    (buildDataJsonEntry j).url = none ∧
    applyCell j = "[🔒 Pro](https://wagey.gg/pricing?ref=github)" ∧
    applyCell j ≠ "[Apply](" ++ jobUrl j ++ ")" ∧
    (∀ c : Option String,
      buildDataJsonEntry { j with company := c } = buildDataJsonEntry j ∧
      (∀ (nowMs : Int) (logos : List (String × String)),
        jobRow nowMs logos { j with company := c } = jobRow nowMs logos j)) := by
  have hpc : applyCell j = "[🔒 Pro](https://wagey.gg/pricing?ref=github)" := by
    simp only [applyCell, h, reduceIte]
    rfl
  refine ⟨?_, ?_, hpc, ?_, ?_⟩
  · simp [buildDataJsonEntry, h]
  · simp [buildDataJsonEntry, h]
  · rw [hpc]
    intro hcontr
    have hdata := congrArg String.data hcontr
    simp only [String.data_append] at hdata
    simp at hdata
  · intro c
    have h2 : ({ j with company := c } : Job).visibility = some "teaser" := h
    constructor
    · show buildDataJsonEntry { j with company := c } = buildDataJsonEntry j
      simp only [buildDataJsonEntry, h2, h, reduceIte]
      rfl
    · intro nowMs logos
      show jobRow nowMs logos { j with company := c } = jobRow nowMs logos j
      simp only [jobRow, applyCell, h2, h, reduceIte]
      rfl

/-- C5 witness: a concrete teaser record exports null company and url, and
changing its company from Acme to Globex leaves its rendered table row
byte-identical. -/
theorem teaser_redaction_witness :
    (buildDataJsonEntry { cJobBase with visibility := some "teaser" }).company = none ∧
    (buildDataJsonEntry { cJobBase with visibility := some "teaser" }).url = none ∧
    jobRow 0 [] { cJobBase with visibility := some "teaser", company := some "Globex" } =
      jobRow 0 [] { cJobBase with visibility := some "teaser" } := by
  have t := teaser_redaction { cJobBase with visibility := some "teaser" } rfl
  exact ⟨t.1, t.2.1, (t.2.2.2.2 (some "Globex")).2 0 []⟩

/-! ## C3 — header/summary counts vs rendered rows -/

/-- The number of rendered rows is the bucket size capped at the limit. -/
theorem renderedJobs_length (jobs : List Job) (limit : Nat) :
    (renderedJobs jobs limit).length = min limit jobs.length := by
  simp [renderedJobs, sortJobs, List.length_take,
    (List.mergeSort_perm jobs sortKeep).length_eq]

/-- Below the cap, the rendered jobs are exactly the sorted bucket. -/
theorem renderedJobs_of_le (jobs : List Job) (limit : Nat) (h : jobs.length ≤ limit) :
    renderedJobs jobs limit = sortJobs jobs := by
  apply List.take_of_length_le
  show (jobs.mergeSort sortKeep).length ≤ limit
  rw [(List.mergeSort_perm jobs sortKeep).length_eq]
  exact h

/-- C3 (amended): whenever a section's bucket holds at most the 500-row
cap, the count quoted in its header (the bucket size) equals the number of
rendered table rows, and the "with salary" (and "verified") summary counts
equal the number of rendered rows satisfying the same predicates.  (With
more than 500 records the header still quotes the full bucket size while
only 500 rows are rendered — see the counterexample.) -/
theorem count_consistency (nowMs : Int) (logos : List (String × String)) (jobs : List Job)
    (h : jobs.length ≤ 500) :
    (jobTableRows nowMs jobs logos 500).length = jobs.length ∧
    ((renderedJobs jobs 500).filter salaryTruthy).length = (jobs.filter salaryTruthy).length ∧
    ((renderedJobs jobs 500).filter verifiedTruthy).length =
      (jobs.filter verifiedTruthy).length := by
  have hperm := List.mergeSort_perm jobs sortKeep
  have hr : renderedJobs jobs 500 = jobs.mergeSort sortKeep := renderedJobs_of_le jobs 500 h
  refine ⟨?_, ?_, ?_⟩
  · simp [jobTableRows, hr, hperm.length_eq]
  · rw [hr, (hperm.filter salaryTruthy).length_eq]
  · rw [hr, (hperm.filter verifiedTruthy).length_eq]

/-- A 501-record bucket. -/
def bigBucket : List Job := List.replicate 501 cJobBase

/-- C3 counterexample: with 501 records in a bucket the section header
quotes 501 (the bucket size) while only 500 rows are rendered below it, so
the quoted count differs from the rendered row count. -/
theorem count_consistency_cex :
    (jobTableRows 0 bigBucket [] 500).length ≠ bigBucket.length := by
  have h1 : (jobTableRows 0 bigBucket [] 500).length = 500 := by
    simp only [jobTableRows, List.length_map, renderedJobs_length, bigBucket,
      List.length_replicate]
    omega
  have h2 : bigBucket.length = 501 := by
    simp only [bigBucket, List.length_replicate]
  omega

/-- C3 amended-theorem witness: a one-record bucket renders exactly one row
and its salary summary matches the rendered rows. -/
theorem count_consistency_witness :
    (jobTableRows 0 [cJobBase] [] 500).length = [cJobBase].length ∧
    ((renderedJobs [cJobBase] 500).filter salaryTruthy).length =
      ([cJobBase].filter salaryTruthy).length :=
  ⟨(count_consistency 0 [] [cJobBase] (by decide)).1,
   (count_consistency 0 [] [cJobBase] (by decide)).2.1⟩

/-! ## C8 — cross-repo history aggregation -/

/-- `tsHit` misses exactly when the entry's timestamp is not the key. -/
theorem tsHit_eq_none_iff (e : LogEntry) (ts : String) :
    tsHit e ts = none ↔ extractTimestamp e.message ≠ some ts := by
  unfold tsHit
  cases hf : extractTimestamp e.message with
  | some ts2 =>
    by_cases hts : ts = ts2
    · subst hts
      simp
    · simp [hts]
      exact fun h => hts h.symm
  | none => simp

/-- A `tsHit` is the entry itself, with the key as its timestamp. -/
theorem tsHit_some (e x : LogEntry) (ts : String) (h : tsHit e ts = some x) :
    x = e ∧ extractTimestamp e.message = some ts := by
  unfold tsHit at h
  cases hf : extractTimestamp e.message with
  | some ts2 =>
    rw [hf] at h
    simp only at h
    by_cases hts : ts = ts2
    · rw [if_pos hts] at h
      exact ⟨(Option.some.injEq _ _ ▸ h).symm, by rw [hts]⟩
    · rw [if_neg hts] at h
      cases h
  | none =>
    rw [hf] at h
    cases h

/-- The timestamp index misses `ts` exactly when no entry of the log has
`ts` as its extracted timestamp. -/
theorem byTs_eq_none_iff (log : List LogEntry) (ts : String) :
    byTs log ts = none ↔ ∀ e ∈ log, extractTimestamp e.message ≠ some ts := by
  induction log with
  | nil => simp [byTs]
  | cons e rest ih =>
    simp only [byTs]
    cases hr : byTs rest ts with
    | some r =>
      simp only [List.mem_cons]
      constructor
      · intro hcontra
        cases hcontra
      · intro hall
        have hnone : byTs rest ts = none := ih.mpr (fun x hx => hall x (Or.inr hx))
        rw [hr] at hnone
        cases hnone
    | none =>
      simp only [List.mem_cons, tsHit_eq_none_iff]
      constructor
      · intro hhit x hx
        rcases hx with rfl | hx
        · exact hhit
        · exact (ih.mp hr) x hx
      · intro hall
        exact hall e (Or.inl rfl)

/-- A hit in the timestamp index is an entry of the log whose extracted
timestamp is the key. -/
theorem byTs_some (log : List LogEntry) (ts : String) (e : LogEntry)
    (h : byTs log ts = some e) :
    e ∈ log ∧ extractTimestamp e.message = some ts := by
  induction log with
  | nil => cases h
  | cons f rest ih =>
    simp only [byTs] at h
    cases hr : byTs rest ts with
    | some r =>
      rw [hr] at h
      simp only at h
      have hre : r = e := Option.some.injEq _ _ ▸ h
      subst hre
      have hm := ih hr
      exact ⟨List.mem_cons_of_mem _ hm.1, hm.2⟩
    | none =>
      rw [hr] at h
      simp only at h
      have hm := tsHit_some f e ts h
      rcases hm with ⟨rfl, hts⟩
      exact ⟨List.Mem.head _, hts⟩

/-- C8: the history table has exactly one row per main-log entry carrying
both an extractable timestamp and an extractable job count; for any
timestamp, a secondary repo's cell is the `—` placeholder exactly when its
log has no entry with that extracted timestamp, and otherwise it is the
linked cell of such an entry; a main-log entry with both parts produces the
row built from its timestamp and the two secondary cells; and an unreadable
log is read as the empty log, so aggregation never fails. -/
theorem history_table_spec (mainLog emeaLog apacLog : List LogEntry) :
    (historyRows mainLog emeaLog apacLog).length =
      (mainLog.filter (fun e => (extractTimestamp e.message).isSome ∧
        (extractJobCount e.message).isSome)).length ∧
    (∀ (repoUrl ts : String) (log : List LogEntry),
      ((∀ e ∈ log, extractTimestamp e.message ≠ some ts) →
        secondaryCell (byTs log) repoUrl ts = "—") ∧
      ((∃ e ∈ log, extractTimestamp e.message = some ts) →
        ∃ e ∈ log, extractTimestamp e.message = some ts ∧
          secondaryCell (byTs log) repoUrl ts = entryCell repoUrl e)) ∧
    (∀ (entry : LogEntry) (ts cnt : String), extractTimestamp entry.message = some ts →
      extractJobCount entry.message = some cnt →
      historyRow (byTs emeaLog) (byTs apacLog) entry =
        some ("| " ++ ts ++ " | " ++
          ("[`" ++ takeStr entry.hash 7 ++ "`](" ++ GITHUB_MAIN ++ "/commit/" ++ entry.hash ++
            ") " ++ cnt) ++ " | " ++ secondaryCell (byTs emeaLog) GITHUB_EMEA ts ++ " | " ++
          secondaryCell (byTs apacLog) GITHUB_APAC ts ++ " |")) ∧
    readGitLog none = [] := by
  refine ⟨?_, ?_, ?_, rfl⟩
  · induction mainLog with
    | nil => rfl
    | cons e rest ih =>
      simp only [historyRows, List.filterMap_cons, List.filter_cons] at ih ⊢
      cases ht : extractTimestamp e.message with
      | none => simp [historyRow, ht, ih]
      | some ts =>
        cases hc : extractJobCount e.message with
        | none => simp [historyRow, ht, hc, ih]
        | some n => simp [historyRow, ht, hc, ih]
  · intro repoUrl ts log
    constructor
    · intro hall
      have hnone : byTs log ts = none := (byTs_eq_none_iff log ts).mpr hall
      simp [secondaryCell, hnone]
    · intro hex
      cases hb : byTs log ts with
      | none =>
        exfalso
        rcases hex with ⟨e, he, hts⟩
        exact ((byTs_eq_none_iff log ts).mp hb) e he hts
      | some e =>
        have hm := byTs_some log ts e hb
        exact ⟨e, hm.1, hm.2, by simp [secondaryCell, hb]⟩
  · intro entry ts cnt ht hc
    simp [historyRow, ht, hc]

/-- Concrete main-repo log entry for the C8 witness. -/
def wEmeaEntry : LogEntry :=
  ⟨"bbbbbbb2222222222222222222222222222222222", some "2026-02-26T04:36:00+00:00",
    "1,200 EMEA jobs | 900 with salary — 26-Feb-2026 04:35 UTC"⟩

/-- Concrete APAC log entry (different embedded timestamp) for the C8
witness. -/
def wApacEntry : LogEntry :=
  ⟨"ccccccc3333333333333333333333333333333333", some "2026-02-25T03:00:00+00:00",
    "800 APAC jobs | 500 with salary — 25-Feb-2026 03:00 UTC"⟩

/-- C8 witness: for the publication timestamp `26-Feb-2026 04:35 UTC`, the
EMEA log holding an entry with that embedded timestamp contributes a linked
cell, while the APAC log (whose only entry embeds a different timestamp)
renders the `—` placeholder. -/
theorem history_table_spec_witness :
    (∃ e ∈ [wEmeaEntry], extractTimestamp e.message = some "26-Feb-2026 04:35 UTC" ∧
      secondaryCell (byTs [wEmeaEntry]) GITHUB_EMEA "26-Feb-2026 04:35 UTC" =
        entryCell GITHUB_EMEA e) ∧
    secondaryCell (byTs [wApacEntry]) GITHUB_APAC "26-Feb-2026 04:35 UTC" = "—" := by
  have t := history_table_spec [] [wEmeaEntry] [wApacEntry]
  refine ⟨(t.2.1 GITHUB_EMEA "26-Feb-2026 04:35 UTC" [wEmeaEntry]).2 ?_,
          (t.2.1 GITHUB_APAC "26-Feb-2026 04:35 UTC" [wApacEntry]).1 ?_⟩
  · exact ⟨wEmeaEntry, List.Mem.head _, by decide⟩
  · intro e he
    have he2 : e = wApacEntry := by
      cases he with
      | head => rfl
      | tail _ h2 => cases h2
    subst he2
    decide
